import Mathlib

/-!
Verification development for the surface-area estimation pipeline.

The Rust source is shallowly embedded: `f64` values are modelled as exact
rationals (`ℚ`), machine integers as `ℤ`/`ℕ`, `Option<f64>` as `Option ℚ`.
External collaborators (GDAL reads, the `geo` boolean-operation library, the
`spade` Delaunay triangulator, `proj4rs`, and the hardware `f64::sqrt`
primitive) are passed in as explicit function parameters, while every piece of
repository code (main.rs, dataset.rs, point.rs, polygon.rs, intersection.rs,
triangulation.rs) is translated definition by definition.
-/

namespace SA

/-- Geographic point, mirroring `point.rs` `WGS84Point { lon, lat, ele }`. -/
structure WGS84Point where
  lon : ℚ
  lat : ℚ
  ele : Option ℚ
  deriving DecidableEq

/-- Projected point, mirroring `point.rs` `MercatorPoint { x, y, ele }`. -/
structure MercatorPoint where
  x : ℚ
  y : ℚ
  ele : Option ℚ
  deriving DecidableEq

/-- `MercatorPoint::flat` from point.rs: copy with elevation set to `Some(0)`. -/
def MercatorPoint.flatten (p : MercatorPoint) : MercatorPoint :=
  { p with ele := some 0 }

/-- The source unwraps `ele` (`p.ele.unwrap()`); callers guarantee the
elevation is defined, which the theorems hypothesise.  `getD 0` stands for the
unwrap under that hypothesis. -/
def unwrapEle (p : MercatorPoint) : ℚ :=
  p.ele.getD 0

/-- Geographic bounding box, `point.rs` `WGS84BoundingBox { min, max }`. -/
structure WGS84BoundingBox where
  min : WGS84Point
  max : WGS84Point
  deriving DecidableEq

/-- `WGS84BoundingBox::from` (point.rs): componentwise min/max of two points,
elevations dropped. -/
def WGS84BoundingBox.ofPoints (p1 p2 : WGS84Point) : WGS84BoundingBox :=
  { min := { lon := Min.min p1.lon p2.lon, lat := Min.min p1.lat p2.lat,
             ele := none }
    max := { lon := Max.max p1.lon p2.lon, lat := Max.max p1.lat p2.lat,
             ele := none } }

/-- `WGS84BoundingBox::intersection` (point.rs): componentwise overlap,
`None` when the boxes are disjoint on either axis. -/
def WGS84BoundingBox.inter (b other : WGS84BoundingBox) :
    Option WGS84BoundingBox :=
  let min_lon := Max.max b.min.lon other.min.lon
  let min_lat := Max.max b.min.lat other.min.lat
  let max_lon := Min.min b.max.lon other.max.lon
  let max_lat := Min.min b.max.lat other.max.lat
  if min_lon ≤ max_lon ∧ min_lat ≤ max_lat then
    some { min := { lon := min_lon, lat := min_lat, ele := none }
           max := { lon := max_lon, lat := max_lat, ele := none } }
  else
    none

/-- `WGS84BoundingBox::contains_point` (point.rs). -/
def WGS84BoundingBox.contains_point (b : WGS84BoundingBox)
    (w : WGS84Point) : Prop :=
  w.lon ≥ b.min.lon ∧ w.lon ≤ b.max.lon ∧ w.lat ≥ b.min.lat ∧ w.lat ≤ b.max.lat

instance (b : WGS84BoundingBox) (w : WGS84Point) :
    Decidable (b.contains_point w) :=
  inferInstanceAs (Decidable (_ ∧ _ ∧ _ ∧ _))

/-- `WGS84BoundingBox::contains_other` (point.rs lines 149-154), translated
verbatim: note the last comparison reads `self.max.lat >= other.min.lat`,
i.e. it tests the OTHER box's minimum latitude, not its maximum. -/
def WGS84BoundingBox.contains_other (b other : WGS84BoundingBox) : Prop :=
  b.min.lon ≤ other.min.lon ∧ b.min.lat ≤ other.min.lat ∧
    b.max.lon ≥ other.max.lon ∧ b.max.lat ≥ other.min.lat

instance (b other : WGS84BoundingBox) :
    Decidable (b.contains_other other) :=
  inferInstanceAs (Decidable (_ ∧ _ ∧ _ ∧ _))

/-- Standard componentwise box containment, written from the claim/spec words
("the standard component-wise sense": `Dj.max.lat ≥ Di.max.lat` on the upper
latitude axis).  Kept separate so it can be compared with the source's
`contains_other`. -/
def containsStandard (b other : WGS84BoundingBox) : Prop :=
  b.min.lon ≤ other.min.lon ∧ b.min.lat ≤ other.min.lat ∧
    b.max.lon ≥ other.max.lon ∧ b.max.lat ≥ other.max.lat

instance (b other : WGS84BoundingBox) :
    Decidable (containsStandard b other) :=
  inferInstanceAs (Decidable (_ ∧ _ ∧ _ ∧ _))

/-! ## Raster model (dataset.rs) -/

/-- `Raster` from dataset.rs: affine geo-transform of a DEM tile. -/
structure Raster where
  upper_left : WGS84Point
  xsize : ℕ
  ysize : ℕ
  xstep : ℚ
  ystep : ℚ
  deriving DecidableEq

/-- `Raster::coordinates` (dataset.rs): continuous geographic → raster
coordinates. -/
def Raster.coordinates (r : Raster) (world : WGS84Point) : ℚ × ℚ :=
  ((world.lon - r.upper_left.lon) / r.xstep,
   (world.lat - r.upper_left.lat) / r.ystep)

/-- Rust `f64::round`: round half away from zero. -/
def rround (q : ℚ) : ℤ :=
  if 0 ≤ q then ⌊q + 1/2⌋ else ⌈q - 1/2⌉

/-- `Raster::icoordinates` (dataset.rs): nearest-integer raster coordinates. -/
def Raster.icoordinates (r : Raster) (world : WGS84Point) : ℤ × ℤ :=
  (rround ((world.lon - r.upper_left.lon) / r.xstep),
   rround ((world.lat - r.upper_left.lat) / r.ystep))

/-- `Raster::wgs84` (dataset.rs): raster indices → geographic cell center. -/
def Raster.wgs84 (r : Raster) (col row : ℤ) : WGS84Point :=
  { lon := r.upper_left.lon + (col : ℚ) * r.xstep
    lat := r.upper_left.lat + (row : ℚ) * r.ystep
    ele := none }

/-- `RasterBox` from dataset.rs. -/
structure RasterBox where
  min : ℤ × ℤ
  max : ℤ × ℤ
  deriving DecidableEq

/-- `Dataset::raster_box` (dataset.rs): convert both box corners to continuous
raster coordinates, take the componentwise min/max, floor the min corner and
ceil the max corner.  The function only reads the dataset's raster, so it is
modelled on `Raster`. -/
def Raster.raster_box (r : Raster) (b : WGS84BoundingBox) : RasterBox :=
  let p1 := r.coordinates b.min
  let p2 := r.coordinates b.max
  let minpix := (min p1.1 p2.1, min p1.2 p2.2)
  let maxpix := (max p1.1 p2.1, max p1.2 p2.2)
  { min := (⌊minpix.1⌋, ⌊minpix.2⌋), max := (⌈maxpix.1⌉, ⌈maxpix.2⌉) }

/-- `Dataset::snap` (dataset.rs): replace the box by the raster-aligned box
through the floored/ceiled corner cell centers, re-normalized via
`WGS84BoundingBox::from`. -/
def Raster.snap (r : Raster) (b : WGS84BoundingBox) : WGS84BoundingBox :=
  let rb := r.raster_box b
  let p1 := r.wgs84 rb.min.1 rb.min.2
  let p2 := r.wgs84 rb.max.1 rb.max.2
  WGS84BoundingBox.ofPoints p1 p2

end SA

namespace SA

/-! ## The ordered post set (point.rs `impl Ord for MercatorPoint`,
main.rs `BTreeSet`) -/

/-- The strict part of `MercatorPoint::cmp` (point.rs lines 80-87):
`x.total_cmp` then `y.total_cmp`, lexicographically.  On exact rationals the
IEEE total order coincides with the usual linear order (no NaN, no negative
zero). -/
def keyLt (p q : MercatorPoint) : Prop :=
  p.x < q.x ∨ (p.x = q.x ∧ p.y < q.y)

/-- Key equality of `MercatorPoint::cmp`: equal `(x, y)`; the elevation does
not take part in the comparison. -/
def keyEq (p q : MercatorPoint) : Prop :=
  p.x = q.x ∧ p.y = q.y

instance (p q : MercatorPoint) : Decidable (keyLt p q) :=
  inferInstanceAs (Decidable (_ ∨ _))

instance (p q : MercatorPoint) : Decidable (keyEq p q) :=
  inferInstanceAs (Decidable (_ ∧ _))

/-- `BTreeSet::insert` on the sorted-list model of the set: place `p` at its
key position unless an element with an equal key is already present — Rust's
`BTreeSet` keeps the existing element in that case (first insertion wins), and
`Ord` ignores the elevation. -/
def insertBT (s : List MercatorPoint) (p : MercatorPoint) :
    List MercatorPoint :=
  match s with
  | [] => [p]
  | q :: t =>
    if keyLt p q then p :: q :: t
    else if keyEq p q then q :: t
    else q :: insertBT t p

/-- Inserting every post of `l` into an initially empty set, in list order:
the grid-point collection loop of `process` (main.rs lines 12-25). -/
def insertAll (l : List MercatorPoint) : List MercatorPoint :=
  l.foldl insertBT []

/-- C5 counterexample posts: equal `(x, y)` keys, different elevations. -/
def post1C5 : MercatorPoint := { x := 0, y := 0, ele := some 1 }

/-- See `post1C5`. -/
def post2C5 : MercatorPoint := { x := 0, y := 0, ele := some 2 }

/-- C5 witness posts: distinct keys. -/
def post3C5 : MercatorPoint := { x := 0, y := 0, ele := some 1 }

/-- See `post3C5`. -/
def post4C5 : MercatorPoint := { x := 1, y := 0, ele := some 2 }

/-! ## Dataset selection (dataset.rs `remove_redundant_datasets`) -/

/-- The slice of `Dataset` that `remove_redundant_datasets` reads: the raster's
`xstep` and the dataset's geographic bounding box (`wgsbbox()` is pure in the
raster data, so it is stored once here). -/
structure DatasetSel where
  xstep : ℚ
  wgsbbox : WGS84BoundingBox
  deriving DecidableEq

/-- Out-of-range default (never read on the index ranges used). -/
def dsDefault : DatasetSel :=
  { xstep := 0
    wgsbbox := { min := { lon := 0, lat := 0, ele := none }
                 max := { lon := 0, lat := 0, ele := none } } }

/-- The inner loop of `Dataset::remove_redundant_datasets` (dataset.rs lines
163-183): dataset `i1` is marked for removal when some other dataset `i2` has a
strictly finer `xstep` and its bbox `contains_other` the bbox of `i1`. -/
def shouldRemove (datasets : List DatasetSel) (i1 : ℕ) : Bool :=
  (List.range datasets.length).any fun i2 =>
    i1 != i2 &&
    decide ((datasets.getD i2 dsDefault).xstep <
      (datasets.getD i1 dsDefault).xstep) &&
    decide ((datasets.getD i2 dsDefault).wgsbbox.contains_other
      (datasets.getD i1 dsDefault).wgsbbox)

/-- `Dataset::remove_redundant_datasets` (dataset.rs): collect the marked
indices in input order, then remove them in descending order — equivalently,
keep the unmarked entries in input order. -/
def remove_redundant_datasets (datasets : List DatasetSel) :
    List DatasetSel :=
  ((List.range datasets.length).filter
      (fun i1 => !shouldRemove datasets i1)).map
    (fun i1 => datasets.getD i1 dsDefault)

/-- C3 failing input, coarse dataset: `xstep 2`, bbox lon `[0,10]`,
lat `[0,10]`. -/
def ds1C3 : DatasetSel :=
  { xstep := 2
    wgsbbox := { min := { lon := 0, lat := 0, ele := none }
                 max := { lon := 10, lat := 10, ele := none } } }

/-- C3 failing input, finer dataset: `xstep 1`, bbox lon `[-1,11]`,
lat `[-1,5]`: it does NOT contain `ds1C3`'s bbox (its top latitude 5 is below
10), yet the buggy `contains_other` accepts it because it compares against the
other box's minimum latitude. -/
def ds2C3 : DatasetSel :=
  { xstep := 1
    wgsbbox := { min := { lon := -1, lat := -1, ele := none }
                 max := { lon := 11, lat := 5, ele := none } } }

/-! ## Triangles and the polygon–triangle clipper (triangulation.rs,
intersection.rs) -/

/-- `Triangle` (triangulation.rs line 6). -/
structure Triangle where
  p0 : MercatorPoint
  p1 : MercatorPoint
  p2 : MercatorPoint
  deriving DecidableEq

/-- `Triangle::as_vector` (triangulation.rs lines 18-24). -/
def Triangle.as_vector (t : Triangle) : List MercatorPoint :=
  [t.p0, t.p1, t.p2]

/-- The barycentric denominator `den = v0x*v1y − v1x*v0y` of
`barycentric_coords` (intersection.rs line 12). -/
def tden (t : Triangle) : ℚ :=
  (t.p1.x - t.p0.x) * (t.p2.y - t.p0.y) -
    (t.p2.x - t.p0.x) * (t.p1.y - t.p0.y)

/-- IEEE `f64` division with the non-finite outcomes made observable: a zero
divisor yields `none` (the source would produce ±∞ or NaN there), any other
division the exact quotient. -/
def fdiv (a b : ℚ) : Option ℚ :=
  if b = 0 then none else some (a / b)

/-- `barycentric_coords` (intersection.rs lines 4-18), translated verbatim:
the two divisions by `den` are UNGUARDED in the source; through `fdiv` a
division by a vanishing `den` is observable as `none`. -/
def barycentric_coords (p : MercatorPoint) (t : Triangle) :
    Option (ℚ × ℚ × ℚ) :=
  let v0x := t.p1.x - t.p0.x
  let v0y := t.p1.y - t.p0.y
  let v1x := t.p2.x - t.p0.x
  let v1y := t.p2.y - t.p0.y
  let v2x := p.x - t.p0.x
  let v2y := p.y - t.p0.y
  let den := v0x * v1y - v1x * v0y
  match fdiv (v2x * v1y - v1x * v2y) den,
      fdiv (v0x * v2y - v2x * v0y) den with
  | some v, some w => some (1 - v - w, v, w)
  | _, _ => none

/-- `interpolate_elevation` (intersection.rs lines 21-28): `Some(u·e0 + v·e1 +
w·e2)` when all three vertex elevations are defined; `None` when one is
missing, and also when the barycentric division ran on a vanishing
denominator (the source would then carry non-finite coordinates into the
product). -/
def interpolate_elevation (p : MercatorPoint) (t : Triangle) : Option ℚ :=
  match barycentric_coords p t with
  | none => none
  | some (u, v, w) =>
    match t.p0.ele, t.p1.ele, t.p2.ele with
    | some e0, some e1, some e2 => some (u * e0 + v * e1 + w * e2)
    | _, _, _ => none

/-- A 2D coordinate of the external `geo` crate. -/
structure Coord where
  x : ℚ
  y : ℚ
  deriving DecidableEq

/-- A polygon of the external `geo` crate: an exterior ring plus interior
rings (holes). -/
structure GeoPolygon where
  exterior : List Coord
  interiors : List (List Coord)
  deriving DecidableEq

/-- `multipolygon_to_mercator` (intersection.rs lines 53-65): a `flat_map`
over the result polygons — the exterior rings of ALL result polygons are
concatenated into ONE vertex list, interiors are dropped, elevations are
`None`. -/
def multipolygon_to_mercator (multi_poly : List GeoPolygon) :
    List MercatorPoint :=
  multi_poly.flatMap fun poly =>
    poly.exterior.map fun coord => { x := coord.x, y := coord.y, ele := none }

/-- `to_geo_polygon` (intersection.rs lines 32-51): convert to 2D coords,
close the ring when first ≠ last, attach no holes; the orientation pass of the
external `geo` crate is the collaborator `orient`. -/
def to_geo_polygon (orient : GeoPolygon → GeoPolygon)
    (points : List MercatorPoint) : GeoPolygon :=
  let coords := points.map fun p => ({ x := p.x, y := p.y } : Coord)
  let closed :=
    match coords.head?, coords.getLast? with
    | some c0, some cn => if c0 ≠ cn then coords ++ [c0] else coords
    | _, _ => coords
  orient { exterior := closed, interiors := [] }

/-- `intersection` (intersection.rs lines 67-80).  The external boolean
operations of the `geo` crate are collaborators: `selfUnion` is `p.union(&p)`
(the cleaning pass, returning a multi-polygon) and `boolInter` the
multi-polygon intersection.  Every vertex of the single concatenated result
list gets its elevation interpolated over the triangle. -/
def intersection (orient : GeoPolygon → GeoPolygon)
    (selfUnion : GeoPolygon → List GeoPolygon)
    (boolInter : List GeoPolygon → List GeoPolygon → List GeoPolygon)
    (polygon : List MercatorPoint) (triangle : Triangle) :
    List MercatorPoint :=
  let p1 := to_geo_polygon orient polygon
  let p2 := to_geo_polygon orient triangle.as_vector
  let m := boolInter (selfUnion p1) (selfUnion p2)
  (multipolygon_to_mercator m).map fun p =>
    { p with ele := interpolate_elevation p triangle }

/-- C2 counterexample: first exterior ring (closed, as the `geo` crate
returns rings). -/
def ringA : List Coord :=
  [{ x := 0, y := 0 }, { x := 1, y := 0 }, { x := 0, y := 1 },
   { x := 0, y := 0 }]

/-- C2 counterexample: second exterior ring, disjoint from `ringA`. -/
def ringB : List Coord :=
  [{ x := 5, y := 5 }, { x := 6, y := 5 }, { x := 5, y := 6 },
   { x := 5, y := 5 }]

/-- C2 counterexample: an interior ring (hole) attached to the second
polygon. -/
def holeB : List Coord :=
  [{ x := 5, y := 5 }, { x := 6, y := 6 }, { x := 5, y := 6 },
   { x := 5, y := 5 }]

/-- C2 counterexample: a boolean-intersection result with two result
polygons, the second carrying a hole. -/
def mpC2 : List GeoPolygon :=
  [{ exterior := ringA, interiors := [] },
   { exterior := ringB, interiors := [holeB] }]

/-- C9/C4 triangle with a non-vanishing barycentric denominator. -/
def triW : Triangle :=
  { p0 := { x := 0, y := 0, ele := some 5 }
    p1 := { x := 1, y := 0, ele := some 7 }
    p2 := { x := 0, y := 1, ele := some 9 } }

/-- C4 counterexample: a degenerate (collinear) triangle, `den = 0`. -/
def triC4 : Triangle :=
  { p0 := { x := 0, y := 0, ele := some 0 }
    p1 := { x := 1, y := 1, ele := some 0 }
    p2 := { x := 2, y := 2, ele := some 0 } }

/-- C4 counterexample: the interpolation point fed to the degenerate
triangle. -/
def ptC4 : MercatorPoint := { x := 0, y := 0, ele := none }

/-! ## Area kernel (polygon.rs) -/

/-- Default vertex for out-of-range `getD` (never read on the index ranges the
loops use). -/
def mpDefault : MercatorPoint := { x := 0, y := 0, ele := none }

/-- The loop vertices of `calculate_3d_surface_area` (polygon.rs lines
100-101): `p1 = polygon[i]`, `p2 = polygon[(i + 1) % len]`; for `i < len` both
are `vtx polygon i` and `vtx polygon (i + 1)`. -/
def vtx (l : List MercatorPoint) (i : ℕ) : MercatorPoint :=
  l.getD (i % l.length) mpDefault

/-- One accumulator of the cross-product loop of `calculate_3d_surface_area`
(polygon.rs lines 95-111): the source accumulates the three components
`total_vec_x/y/z` in a single pass; each is the sum of its per-edge terms. -/
def ringSum (f : MercatorPoint → MercatorPoint → ℚ)
    (l : List MercatorPoint) : ℚ :=
  ∑ i in Finset.range l.length, f (vtx l i) (vtx l (i + 1))

/-- `total_vec_x`: `Σ (p1.y * z2 - z1 * p2.y)`. -/
def crossX (l : List MercatorPoint) : ℚ :=
  ringSum (fun p1 p2 => p1.y * unwrapEle p2 - unwrapEle p1 * p2.y) l

/-- `total_vec_y`: `Σ (z1 * p2.x - p1.x * z2)`. -/
def crossY (l : List MercatorPoint) : ℚ :=
  ringSum (fun p1 p2 => unwrapEle p1 * p2.x - p1.x * unwrapEle p2) l

/-- `total_vec_z`: `Σ (p1.x * p2.y - p1.y * p2.x)`. -/
def crossZ (l : List MercatorPoint) : ℚ :=
  ringSum (fun p1 p2 => p1.x * p2.y - p1.y * p2.x) l

/-- `calculate_3d_surface_area` (polygon.rs lines 90-117): 0 for fewer than
three vertices, else `sqrt(X² + Y² + Z²) / 2`.  The `f64::sqrt` hardware
primitive is the collaborator parameter `rsqrt`. -/
def calculate_3d_surface_area (rsqrt : ℚ → ℚ)
    (polygon : List MercatorPoint) : ℚ :=
  if polygon.length < 3 then 0
  else
    rsqrt (crossX polygon ^ 2 + crossY polygon ^ 2 + crossZ polygon ^ 2) / 2

/-- `polygon::flat` (polygon.rs lines 86-88): every elevation set to 0. -/
def flat (polygon : List MercatorPoint) : List MercatorPoint :=
  polygon.map MercatorPoint.flatten

/-- The unsigned planar shoelace area, written from the claim's formula
(`|Σ (x_i y_{i+1} − y_i x_{i+1})| / 2`, indices mod `|F|`): the spec-side
definition to be compared with the source's area function. -/
def shoelace_area_spec (l : List MercatorPoint) : ℚ :=
  |∑ i in Finset.range l.length,
      ((vtx l i).x * (vtx l (i + 1)).y - (vtx l i).y * (vtx l (i + 1)).x)| / 2

/-- `nx` of the plane normal in `slope` (polygon.rs lines 196-202), computed
from the first three vertices; `getD`/`unwrapEle` stand for the indexing and
unwraps that the source's `assert!`s guard (the theorems hypothesise the
asserted conditions where they matter). -/
def slope_nx (l : List MercatorPoint) : ℚ :=
  let p1 := l.getD 0 mpDefault
  let p2 := l.getD 1 mpDefault
  let p3 := l.getD 2 mpDefault
  (p2.y - p1.y) * (unwrapEle p3 - unwrapEle p1) -
    (unwrapEle p2 - unwrapEle p1) * (p3.y - p1.y)

/-- `ny` of the plane normal in `slope`. -/
def slope_ny (l : List MercatorPoint) : ℚ :=
  let p1 := l.getD 0 mpDefault
  let p2 := l.getD 1 mpDefault
  let p3 := l.getD 2 mpDefault
  (unwrapEle p2 - unwrapEle p1) * (p3.x - p1.x) -
    (p2.x - p1.x) * (unwrapEle p3 - unwrapEle p1)

/-- `nz` of the plane normal in `slope`. -/
def slope_nz (l : List MercatorPoint) : ℚ :=
  let p1 := l.getD 0 mpDefault
  let p2 := l.getD 1 mpDefault
  let p3 := l.getD 2 mpDefault
  (p2.x - p1.x) * (p3.y - p1.y) - (p2.y - p1.y) * (p3.x - p1.x)

/-- `slope` (polygon.rs lines 176-224): normal magnitude below `1e-10` returns
0 before any division; then `|nz|` below `1e-10` returns `+∞` (modelled as `⊤`
in `WithTop ℚ`) before the division by `|nz|`; otherwise
`100 · horizontal / |nz|`.  `rsqrt` is the `f64::sqrt` collaborator. -/
def slope (rsqrt : ℚ → ℚ) (l : List MercatorPoint) : WithTop ℚ :=
  let nx := slope_nx l
  let ny := slope_ny l
  let nz := slope_nz l
  let normal_magnitude := rsqrt (nx * nx + ny * ny + nz * nz)
  if normal_magnitude < 1e-10 then 0
  else
    let horizontal_component := rsqrt (nx * nx + ny * ny)
    let vertical_component := |nz|
    if vertical_component < 1e-10 then ⊤
    else ((horizontal_component / vertical_component * 100 : ℚ) : WithTop ℚ)

/-- A stand-in for `f64::sqrt` that returns 1 everywhere, for the C4 witness
branch that only needs the magnitude to clear the `1e-10` guard. -/
def rsqrtOne (_ : ℚ) : ℚ := 1

/-- C4 witness: a vertical facet (`nz = 0`, nonzero normal). -/
def slopeFV : List MercatorPoint :=
  [{ x := 0, y := 0, ele := some 0 }, { x := 1, y := 0, ele := some 0 },
   { x := 0, y := 0, ele := some 1 }]

/-- A concrete facet: the 10×10 square at elevation 5. -/
def facetW : List MercatorPoint :=
  [{ x := 0, y := 0, ele := some 5 }, { x := 10, y := 0, ele := some 5 },
   { x := 10, y := 10, ele := some 5 }, { x := 0, y := 10, ele := some 5 }]

/-- A concrete stand-in for `f64::sqrt` good at the single value the C8
witness needs (`sqrt 40000 = 200`). -/
def rsqrtW (q : ℚ) : ℚ :=
  if q = 40000 then 200 else 0

/-- A trivial stand-in for `f64::sqrt` for witnesses whose statement does not
constrain it. -/
def rsqrtZero (_ : ℚ) : ℚ := 0

/-! ## Grid triangulation (triangulation.rs `grid::triangulate`) -/

/-- `find_matching_point` (triangulation.rs lines 103-119): the first input
post within `1e-10` of the face vertex coordinate; the source `assert!`s when
none matches and its unreachable fallback builds an elevation-less point,
kept here to stay total. -/
def find_matching_point (points : List MercatorPoint) (coord : Coord) :
    MercatorPoint :=
  match points.find? (fun p =>
      decide (|p.x - coord.x| < 1e-10) &&
      decide (|p.y - coord.y| < 1e-10)) with
  | some p => p
  | none => { x := coord.x, y := coord.y, ele := none }

/-- `grid::triangulate` (triangulation.rs lines 56-100): fewer than three
posts yield no triangles; otherwise each inner face of the external `spade`
Delaunay triangulation (the collaborator `faces`, one coordinate triple per
face) is matched back to the input posts. -/
def triangulate (faces : List MercatorPoint → List (Coord × Coord × Coord))
    (points : List MercatorPoint) : List Triangle :=
  if points.length < 3 then []
  else
    (faces points).map fun f =>
      { p0 := find_matching_point points f.1
        p1 := find_matching_point points f.2.1
        p2 := find_matching_point points f.2.2 }

/-! ## Orchestrator (main.rs `process`) -/

/-- The slice of `Dataset` the orchestrator uses: the geographic bounding box,
the raster (for `snap`), and `points_inside` as a function of the snapped box
(the GDAL window read behind it is external I/O). -/
structure DatasetM where
  wgsbbox : WGS84BoundingBox
  raster : Raster
  points_inside : WGS84BoundingBox → List MercatorPoint

/-- `Polygon` (polygon.rs line 8): the input ring. -/
structure Polygon where
  wgs : List WGS84Point

/-- `Polygon::wgsbbox` (polygon.rs lines 30-49): fold of componentwise
min/max, initialized from `wgs[0]` (the source indexes `wgs[0]`, so an empty
polygon would panic; `getD` with an arbitrary default keeps the model total —
the theorems only use nonempty polygons). -/
def Polygon.wgsbbox (poly : Polygon) : WGS84BoundingBox :=
  let p0 := poly.wgs.getD 0 { lon := 0, lat := 0, ele := none }
  poly.wgs.foldl
    (fun acc curr =>
      { min := { lon := Min.min acc.min.lon curr.lon
                 lat := Min.min acc.min.lat curr.lat
                 ele := none }
        max := { lon := Max.max acc.max.lon curr.lon
                 lat := Max.max acc.max.lat curr.lat
                 ele := none } })
    { min := p0, max := p0 }

/-- The external collaborators `process` threads through the pipeline:
`f64::sqrt`, the projection, the `geo` orientation/boolean operations, the
`spade` faces, and the reference areas of the `geo` crate. -/
structure Collaborators where
  rsqrt : ℚ → ℚ
  proj : WGS84Point → MercatorPoint
  orient : GeoPolygon → GeoPolygon
  selfUnion : GeoPolygon → List GeoPolygon
  boolInter : List GeoPolygon → List GeoPolygon → List GeoPolygon
  faces : List MercatorPoint → List (Coord × Coord × Coord)
  geodesic_area : List WGS84Point → ℚ
  planar_area : List MercatorPoint → ℚ

/-- The numeric fields of `typst::Data` that `process` returns (name and SVG
text are diagnostics outside the model). -/
structure DataRecord where
  geodesic2d : ℚ
  planar2d : ℚ
  projected2d : ℚ
  projected3d : ℚ
  geodesic3d : ℚ
  nplanes : ℕ
  deriving DecidableEq

/-- The body of the grid-point collection loop of `process` (main.rs lines
13-25): a dataset whose bounding box misses the polygon's is skipped; else the
intersection is snapped and the posts inside are inserted into the ordered
set. -/
def gridStep (poly : Polygon) (s : List MercatorPoint)
    (dataset : DatasetM) : List MercatorPoint :=
  match poly.wgsbbox.inter dataset.wgsbbox with
  | some bbox =>
    (dataset.points_inside (dataset.raster.snap bbox)).foldl insertBT s
  | none => s

/-- See `gridStep`: the whole collection loop, starting from the empty set. -/
def gridpointsOf (poly : Polygon) (datasets : List DatasetM) :
    List MercatorPoint :=
  datasets.foldl (gridStep poly) []

/-- The clipping loop body of `process` (main.rs lines 41-58): skip an empty
intersection, compute flat and 3D areas, skip artifacts with flat area below
`0.001`, else accumulate `(Σ2, Σ3, count)`. -/
def clipStep (c : Collaborators) (polygon : List MercatorPoint)
    (acc : ℚ × ℚ × ℕ) (gridtriangle : Triangle) : ℚ × ℚ × ℕ :=
  let plane := intersection c.orient c.selfUnion c.boolInter polygon
    gridtriangle
  if plane = [] then acc
  else
    let a2d := calculate_3d_surface_area c.rsqrt (flat plane)
    let a3d := calculate_3d_surface_area c.rsqrt plane
    if a2d < 0.001 then acc
    else (acc.1 + a2d, acc.2.1 + a3d, acc.2.2 + 1)

/-- `process` (main.rs lines 9-94): collect grid posts, triangulate, clip
every triangle against the polygon, sum the kept facets' areas, and emit the
record unconditionally — `ratio = Σ3/Σ2` (NaN in IEEE when both are 0; in the
exact-rational model `0/0 = 0`) and `estimate = ratio · geodesic`.  The source
has no error channel on this path: no assertion is reachable and the `Data`
value is always produced. -/
def process (c : Collaborators) (input_polygon : Polygon)
    (datasets : List DatasetM) : DataRecord :=
  let gridvec := gridpointsOf input_polygon datasets
  let gridtriangles := triangulate c.faces gridvec
  let polygon := input_polygon.wgs.map c.proj
  let res := gridtriangles.foldl (clipStep c polygon) (0, 0, 0)
  let projected2d := res.1
  let projected3d := res.2.1
  let geodesic2d := c.geodesic_area input_polygon.wgs
  let planar2d := c.planar_area polygon
  let r := projected3d / projected2d
  { geodesic2d := geodesic2d
    planar2d := planar2d
    projected2d := projected2d
    projected3d := projected3d
    geodesic3d := r * c.geodesic_area input_polygon.wgs
    nplanes := res.2.2 }

/-- C1 concrete collaborators: identity-like stand-ins. -/
def collabC1 : Collaborators :=
  { rsqrt := rsqrtZero
    proj := fun w => { x := w.lon, y := w.lat, ele := w.ele }
    orient := id
    selfUnion := fun p => [p]
    boolInter := fun _ _ => []
    faces := fun _ => []
    geodesic_area := fun _ => 42
    planar_area := fun _ => 37 }

/-- C1 concrete polygon: the unit square at the origin. -/
def polyC1 : Polygon :=
  { wgs := [{ lon := 0, lat := 0, ele := none },
            { lon := 1, lat := 0, ele := none },
            { lon := 1, lat := 1, ele := none },
            { lon := 0, lat := 1, ele := none }] }

/-- C1 concrete dataset whose bounding box misses `polyC1`'s. -/
def dsC1 : DatasetM :=
  { wgsbbox := { min := { lon := 5, lat := 5, ele := none }
                 max := { lon := 6, lat := 6, ele := none } }
    raster := { upper_left := { lon := 5, lat := 6, ele := none }
                xsize := 100, ysize := 100, xstep := 1, ystep := -1 }
    points_inside := fun _ => [] }

/-- Witness raster: 0.5-degree columns, north-up rows of −1/3 degree. -/
def rasterW : Raster :=
  { upper_left := { lon := 100, lat := 50, ele := none }
    xsize := 1200, ysize := 1200, xstep := 1/2, ystep := -1/3 }

/-- Witness query box for `snap`. -/
def boxW : WGS84BoundingBox :=
  { min := { lon := 1002/10, lat := 495/10, ele := none }
    max := { lon := 1007/10, lat := 499/10, ele := none } }

end SA

namespace SA

theorem rround_intCast (c : ℤ) : rround (c : ℚ) = c := by
  unfold rround
  by_cases h : (0 : ℚ) ≤ (c : ℚ)
  · rw [if_pos h, show ((c : ℚ) + 1/2) = (1/2 + (c : ℚ)) by ring,
      Int.floor_add_int]
    norm_num
  · rw [if_neg h, show ((c : ℚ) - 1/2) = (-(1/2) + (c : ℚ)) by ring,
      Int.ceil_add_int]
    norm_num

/-- Claim C6: for every raster with `xstep > 0` and `ystep < 0` and all integer
`(col, row)`, converting the cell center `Raster::wgs84(col,row)` back with
`Raster::icoordinates` (nearest-integer rounding) recovers `(col, row)`
exactly. -/
theorem C6_raster_round_trip (r : Raster) (col row : ℤ)
    (hx : 0 < r.xstep) (hy : r.ystep < 0) :
    r.icoordinates (r.wgs84 col row) = (col, row) := by
  unfold Raster.icoordinates Raster.wgs84
  simp only
  have hx0 : r.xstep ≠ 0 := ne_of_gt hx
  have hy0 : r.ystep ≠ 0 := ne_of_lt hy
  have h1 : (r.upper_left.lon + (col : ℚ) * r.xstep - r.upper_left.lon) / r.xstep
      = (col : ℚ) := by
    field_simp
  have h2 : (r.upper_left.lat + (row : ℚ) * r.ystep - r.upper_left.lat) / r.ystep
      = (row : ℚ) := by
    field_simp
  rw [h1, h2, rround_intCast, rround_intCast]

/-- Witness for C6 at a concrete raster and concrete indices. -/
theorem C6_raster_round_trip_witness :
    rasterW.icoordinates (rasterW.wgs84 7 (-3)) = (7, -3) :=
  C6_raster_round_trip rasterW 7 (-3) (by norm_num [rasterW])
    (by norm_num [rasterW])

theorem snap_unfold (r : Raster) (b : WGS84BoundingBox) :
    r.snap b = WGS84BoundingBox.ofPoints
      (r.wgs84 (r.raster_box b).min.1 (r.raster_box b).min.2)
      (r.wgs84 (r.raster_box b).max.1 (r.raster_box b).max.2) := rfl

/-- Claim C7: snapping a box to a raster with `xstep > 0`, `ystep < 0`
produces a box that contains the original one, and whose corners are raster
cell centers (`Raster::wgs84` of integer indices). -/
theorem C7_snap_contains (r : Raster) (b : WGS84BoundingBox)
    (hx : 0 < r.xstep) (hy : r.ystep < 0) :
    ((r.snap b).min.lon ≤ b.min.lon ∧ (r.snap b).min.lat ≤ b.min.lat ∧
      b.max.lon ≤ (r.snap b).max.lon ∧ b.max.lat ≤ (r.snap b).max.lat) ∧
    (∃ c w : ℤ, (r.snap b).min = r.wgs84 c w) ∧
    (∃ c w : ℤ, (r.snap b).max = r.wgs84 c w) := by
  have hs := ne_of_gt hx
  have ht := ne_of_lt hy
  set ul := r.upper_left.lon with hul
  set vl := r.upper_left.lat with hvl
  set s := r.xstep with hsdef
  set t := r.ystep with htdef
  set x1 := (b.min.lon - ul) / s with hx1
  set x2 := (b.max.lon - ul) / s with hx2
  set y1 := (b.min.lat - vl) / t with hy1
  set y2 := (b.max.lat - vl) / t with hy2
  have hrb : r.raster_box b =
      { min := (⌊Min.min x1 x2⌋, ⌊Min.min y1 y2⌋),
        max := (⌈Max.max x1 x2⌉, ⌈Max.max y1 y2⌉) } := rfl
  have hmlon : ((⌊Min.min x1 x2⌋ : ℚ)) * s ≤ b.min.lon - ul := by
    have h1 : ((⌊Min.min x1 x2⌋ : ℚ)) ≤ x1 :=
      le_trans (Int.floor_le _) (min_le_left _ _)
    have h2 : ((⌊Min.min x1 x2⌋ : ℚ)) * s ≤ x1 * s :=
      mul_le_mul_of_nonneg_right h1 (le_of_lt hx)
    have h3 : x1 * s = b.min.lon - ul := div_mul_cancel₀ _ hs
    exact h3 ▸ h2
  have hMlon : b.max.lon - ul ≤ ((⌈Max.max x1 x2⌉ : ℚ)) * s := by
    have h1 : x2 ≤ ((⌈Max.max x1 x2⌉ : ℚ)) :=
      le_trans (le_max_right _ _) (Int.le_ceil _)
    have h2 : x2 * s ≤ ((⌈Max.max x1 x2⌉ : ℚ)) * s :=
      mul_le_mul_of_nonneg_right h1 (le_of_lt hx)
    have h3 : x2 * s = b.max.lon - ul := div_mul_cancel₀ _ hs
    exact h3 ▸ h2
  have hMlat : ((⌈Max.max y1 y2⌉ : ℚ)) * t ≤ b.min.lat - vl := by
    have h1 : y1 ≤ ((⌈Max.max y1 y2⌉ : ℚ)) :=
      le_trans (le_max_left _ _) (Int.le_ceil _)
    have h2 : ((⌈Max.max y1 y2⌉ : ℚ)) * t ≤ y1 * t :=
      mul_le_mul_of_nonpos_right h1 (le_of_lt hy)
    have h3 : y1 * t = b.min.lat - vl := div_mul_cancel₀ _ ht
    exact h3 ▸ h2
  have hmlat : b.max.lat - vl ≤ ((⌊Min.min y1 y2⌋ : ℚ)) * t := by
    have h1 : ((⌊Min.min y1 y2⌋ : ℚ)) ≤ y2 :=
      le_trans (Int.floor_le _) (min_le_right _ _)
    have h2 : y2 * t ≤ ((⌊Min.min y1 y2⌋ : ℚ)) * t :=
      mul_le_mul_of_nonpos_right h1 (le_of_lt hy)
    have h3 : y2 * t = b.max.lat - vl := div_mul_cancel₀ _ ht
    exact h3 ▸ h2
  rw [snap_unfold, hrb]
  simp only [Raster.wgs84, WGS84BoundingBox.ofPoints]
  refine ⟨⟨?_, ?_, ?_, ?_⟩, ?_, ?_⟩
  · exact le_trans (min_le_left _ _) (by linarith)
  · exact le_trans (min_le_right _ _) (by linarith)
  · exact le_trans (by linarith) (le_max_right _ _)
  · exact le_trans (by linarith) (le_max_left _ _)
  · -- the snapped min corner is a cell center
    rcases le_total (ul + (⌊Min.min x1 x2⌋ : ℚ) * s)
        (ul + (⌈Max.max x1 x2⌉ : ℚ) * s) with hc | hc <;>
      rcases le_total (vl + (⌊Min.min y1 y2⌋ : ℚ) * t)
        (vl + (⌈Max.max y1 y2⌉ : ℚ) * t) with hw | hw
    · exact ⟨⌊Min.min x1 x2⌋, ⌊Min.min y1 y2⌋, by
        simp only [Raster.wgs84, WGS84Point.mk.injEq]
        exact ⟨min_eq_left hc, min_eq_left hw, trivial⟩⟩
    · exact ⟨⌊Min.min x1 x2⌋, ⌈Max.max y1 y2⌉, by
        simp only [Raster.wgs84, WGS84Point.mk.injEq]
        exact ⟨min_eq_left hc, min_eq_right hw, trivial⟩⟩
    · exact ⟨⌈Max.max x1 x2⌉, ⌊Min.min y1 y2⌋, by
        simp only [Raster.wgs84, WGS84Point.mk.injEq]
        exact ⟨min_eq_right hc, min_eq_left hw, trivial⟩⟩
    · exact ⟨⌈Max.max x1 x2⌉, ⌈Max.max y1 y2⌉, by
        simp only [Raster.wgs84, WGS84Point.mk.injEq]
        exact ⟨min_eq_right hc, min_eq_right hw, trivial⟩⟩
  · -- the snapped max corner is a cell center
    rcases le_total (ul + (⌊Min.min x1 x2⌋ : ℚ) * s)
        (ul + (⌈Max.max x1 x2⌉ : ℚ) * s) with hc | hc <;>
      rcases le_total (vl + (⌊Min.min y1 y2⌋ : ℚ) * t)
        (vl + (⌈Max.max y1 y2⌉ : ℚ) * t) with hw | hw
    · exact ⟨⌈Max.max x1 x2⌉, ⌈Max.max y1 y2⌉, by
        simp only [Raster.wgs84, WGS84Point.mk.injEq]
        exact ⟨max_eq_right hc, max_eq_right hw, trivial⟩⟩
    · exact ⟨⌈Max.max x1 x2⌉, ⌊Min.min y1 y2⌋, by
        simp only [Raster.wgs84, WGS84Point.mk.injEq]
        exact ⟨max_eq_right hc, max_eq_left hw, trivial⟩⟩
    · exact ⟨⌊Min.min x1 x2⌋, ⌈Max.max y1 y2⌉, by
        simp only [Raster.wgs84, WGS84Point.mk.injEq]
        exact ⟨max_eq_left hc, max_eq_right hw, trivial⟩⟩
    · exact ⟨⌊Min.min x1 x2⌋, ⌊Min.min y1 y2⌋, by
        simp only [Raster.wgs84, WGS84Point.mk.injEq]
        exact ⟨max_eq_left hc, max_eq_left hw, trivial⟩⟩

/-- Witness for C7 at a concrete raster and box. -/
theorem C7_snap_contains_witness :
    ((rasterW.snap boxW).min.lon ≤ boxW.min.lon ∧
      (rasterW.snap boxW).min.lat ≤ boxW.min.lat ∧
      boxW.max.lon ≤ (rasterW.snap boxW).max.lon ∧
      boxW.max.lat ≤ (rasterW.snap boxW).max.lat) ∧
    (∃ c w : ℤ, (rasterW.snap boxW).min = rasterW.wgs84 c w) ∧
    (∃ c w : ℤ, (rasterW.snap boxW).max = rasterW.wgs84 c w) :=
  C7_snap_contains rasterW boxW (by norm_num [rasterW]) (by norm_num [rasterW])

/-- Claim C3, evaluated at the failing input: with the two concrete datasets
`[ds1C3, ds2C3]`, `remove_redundant_datasets` drops `ds1C3` — because the
buggy `contains_other` compares `max.lat` against the OTHER box's `min.lat` —
even though no remaining dataset's bounding box contains `ds1C3`'s bounding
box in the standard componentwise sense required by the claim. -/
theorem C3_redundancy_prune_eval :
    remove_redundant_datasets [ds1C3, ds2C3] = [ds2C3] ∧
    ¬ containsStandard ds2C3.wgsbbox ds1C3.wgsbbox ∧
    ds2C3.xstep < ds1C3.xstep ∧
    ds2C3.wgsbbox.contains_other ds1C3.wgsbbox := by
  refine ⟨?_, ?_, ?_, ?_⟩
  · norm_num [remove_redundant_datasets, shouldRemove, ds1C3, ds2C3, dsDefault,
      WGS84BoundingBox.contains_other, List.range_succ]
  · norm_num [containsStandard, ds1C3, ds2C3]
  · norm_num [ds1C3, ds2C3]
  · norm_num [WGS84BoundingBox.contains_other, ds1C3, ds2C3]

theorem keyEq_symm {p q : MercatorPoint} (h : keyEq p q) : keyEq q p :=
  ⟨h.1.symm, h.2.symm⟩

theorem keyEq_trans {p q r : MercatorPoint} (h1 : keyEq p q)
    (h2 : keyEq q r) : keyEq p r :=
  ⟨h1.1.trans h2.1, h1.2.trans h2.2⟩

theorem not_keyLt_of_keyEq {p q : MercatorPoint} (h : keyEq p q) :
    ¬ keyLt p q := by
  rintro (hx | ⟨-, hy⟩)
  · exact absurd h.1 (ne_of_lt hx)
  · exact absurd h.2 (ne_of_lt hy)

theorem keyLt_asymm {p q : MercatorPoint} (h : keyLt p q) : ¬ keyLt q p := by
  rcases h with hx | ⟨he, hy⟩
  · rintro (hx2 | ⟨he2, -⟩)
    · exact absurd (hx.trans hx2) (lt_irrefl _)
    · exact absurd he2 (ne_of_gt hx)
  · rintro (hx2 | ⟨-, hy2⟩)
    · exact absurd he (ne_of_gt hx2)
    · exact absurd (hy.trans hy2) (lt_irrefl _)

theorem not_keyEq_of_keyLt {p q : MercatorPoint} (h : keyLt p q) :
    ¬ keyEq p q :=
  fun he => not_keyLt_of_keyEq he h

theorem keyLt_trans {p q r : MercatorPoint} (h1 : keyLt p q)
    (h2 : keyLt q r) : keyLt p r := by
  rcases h1 with hx1 | ⟨he1, hy1⟩ <;> rcases h2 with hx2 | ⟨he2, hy2⟩
  · exact Or.inl (hx1.trans hx2)
  · exact Or.inl (he2 ▸ hx1)
  · exact Or.inl (he1 ▸ hx2)
  · exact Or.inr ⟨he1.trans he2, hy1.trans hy2⟩

theorem keyLt_of_keyLt_of_keyEq {p q r : MercatorPoint} (h1 : keyLt p q)
    (h2 : keyEq q r) : keyLt p r := by
  rcases h1 with hx | ⟨he, hy⟩
  · exact Or.inl (h2.1 ▸ hx)
  · exact Or.inr ⟨he.trans h2.1, h2.2 ▸ hy⟩

theorem keyLt_of_keyEq_of_keyLt {p q r : MercatorPoint} (h1 : keyEq p q)
    (h2 : keyLt q r) : keyLt p r := by
  rcases h2 with hx | ⟨he, hy⟩
  · exact Or.inl (h1.1 ▸ hx)
  · exact Or.inr ⟨h1.1.trans he, by rw [h1.2]; exact hy⟩

theorem key_trichotomy (p q : MercatorPoint) :
    keyLt p q ∨ keyEq p q ∨ keyLt q p := by
  rcases lt_trichotomy p.x q.x with hx | hx | hx
  · exact Or.inl (Or.inl hx)
  · rcases lt_trichotomy p.y q.y with hy | hy | hy
    · exact Or.inl (Or.inr ⟨hx, hy⟩)
    · exact Or.inr (Or.inl ⟨hx, hy⟩)
    · exact Or.inr (Or.inr (Or.inr ⟨hx.symm, hy⟩))
  · exact Or.inr (Or.inr (Or.inl hx))

theorem insertBT_nil (p : MercatorPoint) : insertBT [] p = [p] := rfl

theorem insertBT_cons_lt {p q : MercatorPoint} (t : List MercatorPoint)
    (h : keyLt p q) : insertBT (q :: t) p = p :: q :: t := by
  simp [insertBT, if_pos h]

theorem insertBT_cons_eq {p q : MercatorPoint} (t : List MercatorPoint)
    (h : keyEq p q) : insertBT (q :: t) p = q :: t := by
  simp [insertBT, if_neg (not_keyLt_of_keyEq h), if_pos h]

theorem insertBT_cons_gt {p q : MercatorPoint} (t : List MercatorPoint)
    (h : keyLt q p) : insertBT (q :: t) p = q :: insertBT t p := by
  have h1 : ¬ keyLt p q := keyLt_asymm h
  have h2 : ¬ keyEq p q := fun he => not_keyLt_of_keyEq (keyEq_symm he) h
  simp [insertBT, if_neg h1, if_neg h2]

theorem insertBT_comm (x y : MercatorPoint) (hne : ¬ keyEq x y)
    (s : List MercatorPoint) :
    insertBT (insertBT s x) y = insertBT (insertBT s y) x := by
  have hne' : ¬ keyEq y x := fun h => hne (keyEq_symm h)
  induction s with
  | nil =>
    rcases key_trichotomy x y with hxy | hxy | hxy
    · rw [insertBT_nil, insertBT_nil, insertBT_cons_gt [] hxy,
        insertBT_cons_lt [] hxy, insertBT_nil]
    · exact absurd hxy hne
    · rw [insertBT_nil, insertBT_nil, insertBT_cons_lt [] hxy,
        insertBT_cons_gt [] hxy, insertBT_nil]
  | cons q t ih =>
    rcases key_trichotomy x q with hxq | hxq | hxq <;>
      rcases key_trichotomy y q with hyq | hyq | hyq
    · -- x < q, y < q
      rcases key_trichotomy x y with hxy | hxy | hxy
      · simp only [insertBT_cons_lt t hxq, insertBT_cons_lt t hyq,
          insertBT_cons_gt (q :: t) hxy, insertBT_cons_lt (q :: t) hxy]
      · exact absurd hxy hne
      · simp only [insertBT_cons_lt t hxq, insertBT_cons_lt t hyq,
          insertBT_cons_lt (q :: t) hxy, insertBT_cons_gt (q :: t) hxy]
    · -- x < q, y ≈ q
      have hxy : keyLt x y := keyLt_of_keyLt_of_keyEq hxq (keyEq_symm hyq)
      simp only [insertBT_cons_lt t hxq, insertBT_cons_eq t hyq,
        insertBT_cons_gt (q :: t) hxy]
    · -- x < q, q < y
      have hxy : keyLt x y := keyLt_trans hxq hyq
      simp only [insertBT_cons_lt t hxq, insertBT_cons_gt t hyq,
        insertBT_cons_gt (q :: t) hxy, insertBT_cons_lt (insertBT t y) hxq]
    · -- x ≈ q, y < q
      have hyx : keyLt y x := keyLt_of_keyLt_of_keyEq hyq (keyEq_symm hxq)
      simp only [insertBT_cons_eq t hxq, insertBT_cons_lt t hyq,
        insertBT_cons_gt (q :: t) hyx]
    · -- x ≈ q, y ≈ q
      exact absurd (keyEq_trans hxq (keyEq_symm hyq)) hne
    · -- x ≈ q, q < y
      simp only [insertBT_cons_eq t hxq, insertBT_cons_gt t hyq,
        insertBT_cons_eq (insertBT t y) hxq]
    · -- q < x, y < q
      have hyx : keyLt y x := keyLt_trans hyq hxq
      simp only [insertBT_cons_gt t hxq, insertBT_cons_lt (insertBT t x) hyq,
        insertBT_cons_lt t hyq, insertBT_cons_gt (q :: t) hyx]
    · -- q < x, y ≈ q
      simp only [insertBT_cons_gt t hxq, insertBT_cons_eq (insertBT t x) hyq,
        insertBT_cons_eq t hyq]
    · -- q < x, q < y
      simp only [insertBT_cons_gt t hxq, insertBT_cons_gt t hyq,
        insertBT_cons_gt (insertBT t x) hyq, insertBT_cons_gt (insertBT t y) hxq,
        ih]

theorem foldl_insertBT_perm {l1 l2 : List MercatorPoint} (h : l1.Perm l2) :
    (∀ p ∈ l1, ∀ q ∈ l1, keyEq p q → p = q) →
    ∀ s, l1.foldl insertBT s = l2.foldl insertBT s := by
  induction h with
  | nil => intro _ s; rfl
  | cons x h ih =>
    intro hcoh s
    simp only [List.foldl_cons]
    exact ih (fun p hp q hq hk =>
      hcoh p (List.mem_cons_of_mem x hp) q (List.mem_cons_of_mem x hq) hk) _
  | swap x y l =>
    intro hcoh s
    simp only [List.foldl_cons]
    by_cases hk : keyEq y x
    · rw [hcoh y (by simp) x (by simp) hk]
    · rw [insertBT_comm y x hk s]
  | trans h12 _ ih1 ih2 =>
    intro hcoh s
    rw [ih1 hcoh s]
    exact ih2 (fun p hp q hq hk =>
      hcoh p (h12.mem_iff.mpr hp) q (h12.mem_iff.mpr hq) hk) s

/-- Claim C5, amended: inserting the posts of a multiset into the ordered
`BTreeSet` (keyed on `(x, y)` only, first insertion wins) yields contents
independent of the insertion order PROVIDED any two posts of the multiset that
share a key are fully equal (same elevation).  Without that proviso the claim
fails, see the counterexample. -/
theorem C5_dedup_deterministic (l1 l2 : List MercatorPoint)
    (h : l1.Perm l2)
    (hcoh : ∀ p ∈ l1, ∀ q ∈ l1, keyEq p q → p = q) :
    insertAll l1 = insertAll l2 :=
  foldl_insertBT_perm h hcoh []

/-- Witness for the amended C5 at two concrete distinct-key posts. -/
theorem C5_dedup_deterministic_witness :
    insertAll [post3C5, post4C5] = insertAll [post4C5, post3C5] :=
  C5_dedup_deterministic [post3C5, post4C5] [post4C5, post3C5]
    (List.Perm.swap post4C5 post3C5 [])
    (by decide)

/-- Claim C5, counterexample: two posts with equal `(x, y)` but different
elevations.  Inserting them in the two orders yields different set contents
(the elevation of the surviving representative is the first inserted), so the
deduplicated post set is NOT deterministic regardless of iteration order for
such multisets, contrary to the claim. -/
theorem C5_counterexample :
    ([post1C5, post2C5]).Perm [post2C5, post1C5] ∧
    insertAll [post1C5, post2C5] ≠ insertAll [post2C5, post1C5] := by
  constructor
  · exact List.Perm.swap post2C5 post1C5 []
  · norm_num [insertAll, insertBT, keyLt, keyEq, post1C5, post2C5]

theorem flat_length (l : List MercatorPoint) : (flat l).length = l.length :=
  List.length_map _ _

theorem vtx_flat (l : List MercatorPoint) (hl : l ≠ []) (i : ℕ) :
    vtx (flat l) i = (vtx l i).flatten := by
  have hpos : 0 < l.length := List.length_pos.mpr hl
  have hm : i % l.length < l.length := Nat.mod_lt _ hpos
  simp only [vtx, flat, List.length_map]
  rw [List.getD_eq_getElem?_getD, List.getD_eq_getElem?_getD,
    List.getElem?_map, List.getElem?_eq_getElem hm]
  rfl

theorem crossX_flat (l : List MercatorPoint) : crossX (flat l) = 0 := by
  rcases eq_or_ne l [] with rfl | hl
  · rfl
  · unfold crossX ringSum
    rw [flat_length]
    refine Finset.sum_eq_zero fun i _ => ?_
    rw [vtx_flat l hl, vtx_flat l hl]
    simp [MercatorPoint.flatten, unwrapEle]

theorem crossY_flat (l : List MercatorPoint) : crossY (flat l) = 0 := by
  rcases eq_or_ne l [] with rfl | hl
  · rfl
  · unfold crossY ringSum
    rw [flat_length]
    refine Finset.sum_eq_zero fun i _ => ?_
    rw [vtx_flat l hl, vtx_flat l hl]
    simp [MercatorPoint.flatten, unwrapEle]

theorem crossZ_flat (l : List MercatorPoint) : crossZ (flat l) = crossZ l := by
  rcases eq_or_ne l [] with rfl | hl
  · rfl
  · unfold crossZ ringSum
    rw [flat_length]
    refine Finset.sum_congr rfl fun i _ => ?_
    rw [vtx_flat l hl, vtx_flat l hl]
    simp [MercatorPoint.flatten]

theorem shoelace_eq_crossZ (l : List MercatorPoint) :
    shoelace_area_spec l = |crossZ l| / 2 := rfl

theorem crossZ_short (l : List MercatorPoint) (h : l.length < 3) :
    crossZ l = 0 := by
  rcases l with _ | ⟨a, _ | ⟨b, _ | ⟨c, t⟩⟩⟩
  · rfl
  · simp only [crossZ, ringSum, vtx, List.length_singleton,
      Finset.sum_range_one, Nat.mod_self, Nat.zero_mod, List.getD_cons_zero]
    ring
  · simp only [crossZ, ringSum, vtx]
    norm_num [Finset.sum_range_succ]
    ring
  · simp only [List.length_cons] at h
    omega

/-- Claim C8: flattening a facet and taking the 3D cross-product area gives
exactly the unsigned planar shoelace area of its `(x, y)` vertices; both sides
are 0 for fewer than three vertices.  `rsqrt` is the `f64::sqrt` collaborator;
the single hypothesis on it states that it takes the exact square root of the
one square the computation feeds it. -/
theorem C8_flat_area_is_shoelace (rsqrt : ℚ → ℚ) (F : List MercatorPoint)
    (_hele : ∀ p ∈ F, p.ele.isSome)
    (hsq : rsqrt (crossZ F ^ 2) = |crossZ F|) :
    calculate_3d_surface_area rsqrt (flat F) = shoelace_area_spec F := by
  by_cases h3 : F.length < 3
  · have hflat : (flat F).length < 3 := by rwa [flat_length]
    rw [calculate_3d_surface_area, if_pos hflat, shoelace_eq_crossZ,
      crossZ_short F h3]
    norm_num
  · have hflat : ¬ (flat F).length < 3 := by rwa [flat_length]
    rw [calculate_3d_surface_area, if_neg hflat, crossX_flat, crossY_flat,
      crossZ_flat, shoelace_eq_crossZ,
      show (0 : ℚ) ^ 2 + 0 ^ 2 + crossZ F ^ 2 = crossZ F ^ 2 by ring, hsq]

/-- Witness for C8 at the concrete square facet. -/
theorem C8_flat_area_is_shoelace_witness :
    calculate_3d_surface_area rsqrtW (flat facetW) =
      shoelace_area_spec facetW :=
  C8_flat_area_is_shoelace rsqrtW facetW (by decide)
    (by norm_num [crossZ, ringSum, vtx, facetW, rsqrtW, Finset.sum_range_succ])

theorem ringSum_append_head (f : MercatorPoint → MercatorPoint → ℚ)
    (hf : ∀ p, f p p = 0) (F : List MercatorPoint) (hne : F ≠ []) :
    ringSum f (F ++ [F.getD 0 mpDefault]) = ringSum f F := by
  have hpos : 0 < F.length := List.length_pos.mpr hne
  have hlen : (F ++ [F.getD 0 mpDefault]).length = F.length + 1 := by simp
  have hvtx : ∀ i ≤ F.length,
      vtx (F ++ [F.getD 0 mpDefault]) i = vtx F i := by
    intro i hi
    have hmod : i % (F.length + 1) = i := Nat.mod_eq_of_lt (by omega)
    unfold vtx
    rw [hlen, hmod]
    rcases lt_or_eq_of_le hi with hi | rfl
    · rw [List.getD_append _ _ _ _ hi, Nat.mod_eq_of_lt hi]
    · rw [List.getD_append_right _ _ _ _ (le_refl _), Nat.sub_self,
        Nat.mod_self, List.getD_cons_zero]
  have hlast : vtx (F ++ [F.getD 0 mpDefault]) (F.length + 1) = vtx F 0 := by
    unfold vtx
    rw [hlen, Nat.mod_self, Nat.zero_mod,
      List.getD_append _ _ _ _ hpos]
  unfold ringSum
  rw [hlen, Finset.sum_range_succ, hvtx F.length (le_refl _), hlast]
  have hz : vtx F F.length = vtx F 0 := by
    unfold vtx
    rw [Nat.mod_self, Nat.zero_mod]
  rw [hz, hf]
  rw [add_zero]
  refine Finset.sum_congr rfl fun i hi => ?_
  rw [Finset.mem_range] at hi
  rw [hvtx i (le_of_lt hi), hvtx (i + 1) hi]

/-- Claim C10: appending a duplicate of the first vertex to a facet with at
least three vertices (all elevations defined) leaves
`calculate_3d_surface_area` unchanged — so the closed exterior rings returned
by `intersection` get the same area as the unclosed rings. -/
theorem C10_closing_vertex_area (rsqrt : ℚ → ℚ) (F : List MercatorPoint)
    (h3 : 3 ≤ F.length) (_hele : ∀ p ∈ F, p.ele.isSome) :
    calculate_3d_surface_area rsqrt (F ++ [F.getD 0 mpDefault]) =
      calculate_3d_surface_area rsqrt F := by
  have hne : F ≠ [] := by
    intro h
    rw [h] at h3
    simp at h3
  have hlen : (F ++ [F.getD 0 mpDefault]).length = F.length + 1 := by simp
  have hX : crossX (F ++ [F.getD 0 mpDefault]) = crossX F :=
    ringSum_append_head _ (fun p => by ring) F hne
  have hY : crossY (F ++ [F.getD 0 mpDefault]) = crossY F :=
    ringSum_append_head _ (fun p => by ring) F hne
  have hZ : crossZ (F ++ [F.getD 0 mpDefault]) = crossZ F :=
    ringSum_append_head _ (fun p => by ring) F hne
  unfold calculate_3d_surface_area
  rw [if_neg (by omega : ¬ (F ++ [F.getD 0 mpDefault]).length < 3),
    if_neg (by omega : ¬ F.length < 3), hX, hY, hZ]

/-- Witness for C10 at the concrete square facet. -/
theorem C10_closing_vertex_area_witness :
    calculate_3d_surface_area rsqrtZero (facetW ++ [facetW.getD 0 mpDefault]) =
      calculate_3d_surface_area rsqrtZero facetW :=
  C10_closing_vertex_area rsqrtZero facetW (by decide) (by decide)

theorem barycentric_of_den_eq_zero (p : MercatorPoint) (t : Triangle)
    (h : tden t = 0) : barycentric_coords p t = none := by
  unfold tden at h
  simp only [barycentric_coords, fdiv]
  rw [if_pos h]

theorem barycentric_at_p0 (t : Triangle) (h : tden t ≠ 0) :
    barycentric_coords t.p0 t = some (1, 0, 0) := by
  unfold tden at h
  simp only [barycentric_coords, fdiv, sub_self, zero_mul, mul_zero,
    sub_zero, zero_div]
  rw [if_neg h]
  norm_num

theorem barycentric_at_p1 (t : Triangle) (h : tden t ≠ 0) :
    barycentric_coords t.p1 t = some (0, 1, 0) := by
  unfold tden at h
  simp only [barycentric_coords, fdiv, sub_self, zero_div]
  rw [if_neg h, div_self h, if_neg h]
  norm_num

theorem barycentric_at_p2 (t : Triangle) (h : tden t ≠ 0) :
    barycentric_coords t.p2 t = some (0, 0, 1) := by
  unfold tden at h
  simp only [barycentric_coords, fdiv, sub_self, zero_div]
  rw [if_neg h, div_self h, if_neg h]
  norm_num

/-- Claim C9: when the barycentric denominator of a triangle does not vanish
and all three vertex elevations are defined, interpolating at each vertex
returns that vertex's elevation exactly (the arithmetic is exact in the
rational model; the source's products and quotients at a vertex reduce to
`den/den` and `0/den`, which are exact in IEEE arithmetic as well). -/
theorem C9_vertex_interpolation (t : Triangle) (e0 e1 e2 : ℚ)
    (hden : tden t ≠ 0) (h0 : t.p0.ele = some e0) (h1 : t.p1.ele = some e1)
    (h2 : t.p2.ele = some e2) :
    interpolate_elevation t.p0 t = some e0 ∧
    interpolate_elevation t.p1 t = some e1 ∧
    interpolate_elevation t.p2 t = some e2 := by
  refine ⟨?_, ?_, ?_⟩
  · rw [interpolate_elevation, barycentric_at_p0 t hden, h0, h1, h2]
    norm_num
  · rw [interpolate_elevation, barycentric_at_p1 t hden, h0, h1, h2]
    norm_num
  · rw [interpolate_elevation, barycentric_at_p2 t hden, h0, h1, h2]
    norm_num

/-- Witness for C9 at a concrete triangle. -/
theorem C9_vertex_interpolation_witness :
    interpolate_elevation triW.p0 triW = some 5 ∧
    interpolate_elevation triW.p1 triW = some 7 ∧
    interpolate_elevation triW.p2 triW = some 9 :=
  C9_vertex_interpolation triW 5 7 9 (by norm_num [tden, triW]) rfl rfl rfl

/-- Claim C4, amended: `slope`'s two divisions are guarded exactly as the
claim states (normal magnitude below `1e-10` returns 0, then `|nz|` below
`1e-10` returns `+∞`, in both cases before dividing), but the barycentric
denominator is NOT guarded: `barycentric_coords` executes the divisions by
`den` unconditionally, and when `den` vanishes the division by zero is
executed (observable as `none`, the source's non-finite values). -/
theorem C4_division_guards :
    (∀ (p : MercatorPoint) (t : Triangle), tden t = 0 →
      barycentric_coords p t = none) ∧
    (∀ (rsqrt : ℚ → ℚ) (l : List MercatorPoint),
      rsqrt (slope_nx l * slope_nx l + slope_ny l * slope_ny l +
        slope_nz l * slope_nz l) < 1e-10 → slope rsqrt l = 0) ∧
    (∀ (rsqrt : ℚ → ℚ) (l : List MercatorPoint),
      ¬ rsqrt (slope_nx l * slope_nx l + slope_ny l * slope_ny l +
        slope_nz l * slope_nz l) < 1e-10 →
      |slope_nz l| < 1e-10 → slope rsqrt l = ⊤) := by
  refine ⟨barycentric_of_den_eq_zero, ?_, ?_⟩
  · intro rsqrt l h
    simp only [slope]
    rw [if_pos h]
  · intro rsqrt l h1 h2
    simp only [slope]
    rw [if_neg h1, if_pos h2]

/-- Witness for C4 at concrete inputs: the degenerate triangle exercises the
unguarded barycentric division, a flat facet the magnitude guard, and a
vertical facet the `|nz|` guard. -/
theorem C4_division_guards_witness :
    barycentric_coords ptC4 triC4 = none ∧
    slope rsqrtZero facetW = 0 ∧
    slope rsqrtOne slopeFV = ⊤ :=
  ⟨C4_division_guards.1 ptC4 triC4 (by norm_num [tden, triC4]),
   C4_division_guards.2.1 rsqrtZero facetW (by norm_num [rsqrtZero]),
   C4_division_guards.2.2 rsqrtOne slopeFV (by norm_num [rsqrtOne])
     (by norm_num [slope_nz, slopeFV, mpDefault, unwrapEle])⟩

/-- Claim C4, counterexample: at the degenerate triangle `triC4` the
denominator vanishes and `barycentric_coords` does NOT short-circuit to a
designated fallback — the division by the vanishing `den` is executed
(`none`, i.e. non-finite results in the source), contrary to the claim that
both functions guard their divisions. -/
theorem C4_counterexample :
    tden triC4 = 0 ∧ barycentric_coords ptC4 triC4 = none := by
  constructor
  · norm_num [tden, triC4]
  · norm_num [barycentric_coords, fdiv, tden, triC4, ptC4]

/-- Claim C2, amended: `multipolygon_to_mercator` concatenates the exterior
rings of ALL result polygons into one single vertex list (one facet for the
whole multi-polygon result, rings not kept separate), and interior holes never
influence the output. -/
theorem C2_exterior_concat_holes_ignored (mp : List GeoPolygon) :
    multipolygon_to_mercator mp =
      multipolygon_to_mercator
        (mp.map fun poly => { exterior := poly.exterior, interiors := [] }) ∧
    multipolygon_to_mercator mp =
      (mp.map fun poly => poly.exterior.map fun coord =>
        ({ x := coord.x, y := coord.y, ele := none } : MercatorPoint)).flatten
    := by
  constructor
  · induction mp with
    | nil => rfl
    | cons p t ih =>
      simp only [multipolygon_to_mercator, List.map_cons, List.flatMap_cons]
        at ih ⊢
      rw [ih]
  · induction mp with
    | nil => rfl
    | cons p t ih =>
      simp only [multipolygon_to_mercator, List.map_cons, List.flatMap_cons,
        List.flatten_cons] at ih ⊢
      rw [ih]

/-- Claim C2, counterexample: a boolean intersection result with two result
polygons (`mpC2`).  The code returns ONE vertex list of length 8 holding the
vertices of BOTH exterior rings — vertices of distinct exterior rings are
merged into a single facet, contrary to the claim that every exterior ring is
kept as a separate facet. -/
theorem C2_counterexample :
    (multipolygon_to_mercator mpC2).length = 8 ∧
    ({ x := 0, y := 0, ele := none } : MercatorPoint) ∈
      multipolygon_to_mercator mpC2 ∧
    ({ x := 5, y := 5, ele := none } : MercatorPoint) ∈
      multipolygon_to_mercator mpC2 := by
  refine ⟨?_, ?_, ?_⟩ <;>
    simp [multipolygon_to_mercator, mpC2, ringA, ringB, holeB]

theorem clipStep_skip (c : Collaborators) (polygon : List MercatorPoint)
    (triangles : List Triangle)
    (h : ∀ t ∈ triangles,
      intersection c.orient c.selfUnion c.boolInter polygon t = [] ∨
      calculate_3d_surface_area c.rsqrt
        (flat (intersection c.orient c.selfUnion c.boolInter polygon t)) <
        0.001) :
    triangles.foldl (clipStep c polygon) (0, 0, 0) = (0, 0, 0) := by
  induction triangles with
  | nil => rfl
  | cons t ts ih =>
    have hstep : clipStep c polygon (0, 0, 0) t = (0, 0, 0) := by
      simp only [clipStep]
      rcases h t (List.mem_cons_self t ts) with ht | ht
      · rw [if_pos ht]
      · by_cases hp :
          intersection c.orient c.selfUnion c.boolInter polygon t = []
        · rw [if_pos hp]
        · rw [if_neg hp, if_pos ht]
    rw [List.foldl_cons, hstep]
    exact ih fun u hu => h u (List.mem_cons_of_mem t hu)

theorem gridStep_none (poly : Polygon) (d : DatasetM)
    (s : List MercatorPoint) (h : poly.wgsbbox.inter d.wgsbbox = none) :
    gridStep poly s d = s := by
  unfold gridStep
  rw [h]

theorem gridpointsOf_eq_nil (poly : Polygon) (datasets : List DatasetM)
    (h : ∀ d ∈ datasets, poly.wgsbbox.inter d.wgsbbox = none) :
    gridpointsOf poly datasets = [] := by
  unfold gridpointsOf
  have key : ∀ l : List DatasetM,
      (∀ d ∈ l, poly.wgsbbox.inter d.wgsbbox = none) →
      ∀ s, l.foldl (gridStep poly) s = s := by
    intro l
    induction l with
    | nil => intro _ s; rfl
    | cons d ds ih =>
      intro hl s
      rw [List.foldl_cons,
        gridStep_none poly d s (hl d (List.mem_cons_self d ds))]
      exact ih (fun u hu => hl u (List.mem_cons_of_mem d hu)) s
  exact key datasets h []

/-- Claim C1, amended: the orchestrator surfaces NO error in either failure
scenario and still produces a full `Data` record, `estimate` field included.
When no selected dataset's bounding box intersects the polygon's, or when
zero facets survive clipping and the `1e-3` area filter, `process` returns
the record with `Σ2 = Σ3 = 0`, facet count 0, and
`estimate = (Σ3/Σ2)·geodesic` — `0/0` is NaN in the source's IEEE arithmetic
and 0 in the exact-rational model; a value is emitted either way. -/
theorem C1_record_produced_without_error :
    (∀ (c : Collaborators) (poly : Polygon) (datasets : List DatasetM),
      (∀ d ∈ datasets, poly.wgsbbox.inter d.wgsbbox = none) →
      process c poly datasets =
        { geodesic2d := c.geodesic_area poly.wgs
          planar2d := c.planar_area (poly.wgs.map c.proj)
          projected2d := 0
          projected3d := 0
          geodesic3d := 0
          nplanes := 0 }) ∧
    (∀ (c : Collaborators) (poly : Polygon) (datasets : List DatasetM),
      (∀ t ∈ triangulate c.faces (gridpointsOf poly datasets),
        intersection c.orient c.selfUnion c.boolInter (poly.wgs.map c.proj)
          t = [] ∨
        calculate_3d_surface_area c.rsqrt
          (flat (intersection c.orient c.selfUnion c.boolInter
            (poly.wgs.map c.proj) t)) < 0.001) →
      process c poly datasets =
        { geodesic2d := c.geodesic_area poly.wgs
          planar2d := c.planar_area (poly.wgs.map c.proj)
          projected2d := 0
          projected3d := 0
          geodesic3d := 0
          nplanes := 0 }) := by
  have key : ∀ (c : Collaborators) (poly : Polygon)
      (datasets : List DatasetM),
      (∀ t ∈ triangulate c.faces (gridpointsOf poly datasets),
        intersection c.orient c.selfUnion c.boolInter (poly.wgs.map c.proj)
          t = [] ∨
        calculate_3d_surface_area c.rsqrt
          (flat (intersection c.orient c.selfUnion c.boolInter
            (poly.wgs.map c.proj) t)) < 0.001) →
      process c poly datasets =
        { geodesic2d := c.geodesic_area poly.wgs
          planar2d := c.planar_area (poly.wgs.map c.proj)
          projected2d := 0
          projected3d := 0
          geodesic3d := 0
          nplanes := 0 } := by
    intro c poly datasets h
    simp only [process]
    rw [clipStep_skip c (poly.wgs.map c.proj)
      (triangulate c.faces (gridpointsOf poly datasets)) h]
    norm_num
  refine ⟨?_, key⟩
  intro c poly datasets h
  apply key
  rw [gridpointsOf_eq_nil poly datasets h]
  intro t ht
  simp [triangulate] at ht

/-- Claim C1, counterexample: the concrete dataset `dsC1` does not intersect
`polyC1`'s bounding box, yet `process` runs to completion with no error and
produces the full record — `estimate` (`geodesic3d`) included — contrary to
the claim that an error is surfaced and no estimate is produced. -/
theorem C1_counterexample :
    polyC1.wgsbbox.inter dsC1.wgsbbox = none ∧
    process collabC1 polyC1 [dsC1] =
      { geodesic2d := 42
        planar2d := 37
        projected2d := 0
        projected3d := 0
        geodesic3d := 0
        nplanes := 0 } := by
  have hinter : polyC1.wgsbbox.inter dsC1.wgsbbox = none := by
    norm_num [Polygon.wgsbbox, polyC1, dsC1, WGS84BoundingBox.inter,
      min_def, max_def]
  refine ⟨hinter, ?_⟩
  have hgrid : gridpointsOf polyC1 [dsC1] = [] := by
    unfold gridpointsOf
    rw [List.foldl_cons, gridStep_none polyC1 dsC1 [] hinter]
    rfl
  simp only [process, hgrid]
  norm_num [triangulate, collabC1]

/-- Witness for the amended C1 at the concrete no-intersection input. -/
theorem C1_record_produced_without_error_witness :
    process collabC1 polyC1 [dsC1] =
      { geodesic2d := collabC1.geodesic_area polyC1.wgs
        planar2d := collabC1.planar_area (polyC1.wgs.map collabC1.proj)
        projected2d := 0
        projected3d := 0
        geodesic3d := 0
        nplanes := 0 } :=
  C1_record_produced_without_error.1 collabC1 polyC1 [dsC1]
    (by
      intro d hd
      rw [List.mem_singleton] at hd
      subst hd
      norm_num [Polygon.wgsbbox, polyC1, dsC1, WGS84BoundingBox.inter,
        min_def, max_def])

end SA
